import Mathlib

/-!
# Verification of the TextSentiment semantic-search core

A shallow embedding, in Lean 4, of the core logic of the repository:

* `app/services/bible_service.py`     — citation parsing against the alias table
* `app/services/embedding_service.py` — retrying embedding client and cosine similarity
* `app/services/mongodb_database.py`  — document store operations and similarity ranking
* `main.py`                           — the `add_record` and `search` orchestrators

Python strings are modelled as `List Char` (with `String` at the API
boundary), Python `float` as `ℚ` (the claims under study are control-flow
and ordering claims, never claims about rounding), Mongo ObjectIds as `Nat`,
and the external HTTP collaborators (Ollama, bolls.life, MongoDB) as
function parameters, so that every definition is executable.
-/

namespace TextSentiment

/-! ## Python string primitives

`str.strip`, `str.lower`, `str.split` and `int(...)` as used by the source.
`str.strip()` strips the Python whitespace set; `str.lower()` is modelled on
the ASCII uppercase range (every alias-table key and every string these
claims touch is lowercase outside A–Z already).  Regex `\d` and `\s` are
modelled as ASCII digits and the Python whitespace set. -/

/-- Python whitespace: space, tab, newline, carriage return, vertical tab, form feed. -/
def isPySpace (c : Char) : Bool :=
  c.toNat = 32 || c.toNat = 9 || c.toNat = 10 || c.toNat = 13 || c.toNat = 11 || c.toNat = 12

/-- ASCII decimal digit, the `\d` of the source's regexes. -/
def isAsciiDigit (c : Char) : Bool :=
  48 ≤ c.toNat && c.toNat ≤ 57

/-- `str.lower` on one character (ASCII uppercase range). -/
def pyLowerChar (c : Char) : Char :=
  if 65 ≤ c.toNat ∧ c.toNat ≤ 90 then Char.ofNat (c.toNat + 32) else c

/-- `str.lower`. -/
def pyLower (l : List Char) : List Char := l.map pyLowerChar

/-- Drop leading Python whitespace. -/
def trimLeft (l : List Char) : List Char := l.dropWhile isPySpace

/-- Drop trailing Python whitespace. -/
def trimRight (l : List Char) : List Char := (trimLeft l.reverse).reverse

/-- `str.strip()`. -/
def pyStrip (l : List Char) : List Char := trimRight (trimLeft l)

/-- `str.strip()` at the `String` boundary. -/
def pyStripStr (s : String) : String := String.mk (pyStrip s.data)

/-- `str.lower()` at the `String` boundary. -/
def pyLowerStr (s : String) : String := String.mk (pyLower s.data)

/-- `int(...)` on a string of ASCII digits. -/
def digitsToNat (l : List Char) : Nat :=
  l.foldl (fun n c => 10 * n + (c.toNat - 48)) 0

/-- Word count of `len(text.split())`: number of maximal non-whitespace runs. -/
def wordCountAux : Bool → List Char → Nat
  | _, [] => 0
  | inWord, c :: rest =>
    if isPySpace c then wordCountAux false rest
    else (if inWord then 0 else 1) + wordCountAux true rest

/-- `len(text.split())`. -/
def pyWordCount (s : String) : Nat := wordCountAux false s.data

/-! ## BibleService (`app/services/bible_service.py`)

The alias table `self.book_mapping` is a Python dict literal; entries are
listed below in source order.  A dict literal binds duplicate keys in order,
so a later entry for the same key overwrites the earlier one — the lookup
therefore takes the LAST entry whose key matches. -/

/-- The `book_mapping` dict literal, as the ordered list of its entries. -/
def book_mapping : List (String × Nat) := [
  -- Old Testament
  ("genesis", 1), ("gênesis", 1), ("gn", 1),
  ("exodo", 2), ("êxodo", 2), ("ex", 2),
  ("levitico", 3), ("levítico", 3), ("lv", 3),
  ("numeros", 4), ("números", 4), ("nm", 4),
  ("deuteronomio", 5), ("deuteronômio", 5), ("dt", 5),
  ("josue", 6), ("josué", 6), ("js", 6),
  ("juizes", 7), ("juízes", 7), ("jz", 7),
  ("rute", 8), ("rt", 8),
  ("1 samuel", 9), ("1samuel", 9), ("1sm", 9), ("1 sm", 9),
  ("2 samuel", 10), ("2samuel", 10), ("2sm", 10), ("2 sm", 10),
  ("1 reis", 11), ("1reis", 11), ("1rs", 11), ("1 rs", 11),
  ("2 reis", 12), ("2reis", 12), ("2rs", 12), ("2 rs", 12),
  ("1 cronicas", 13), ("1crônicas", 13), ("1 crônicas", 13), ("1cr", 13), ("1 cr", 13),
  ("2 cronicas", 14), ("2crônicas", 14), ("2 crônicas", 14), ("2cr", 14), ("2 cr", 14),
  ("esdras", 15), ("ed", 15),
  ("neemias", 16), ("ne", 16),
  ("ester", 17), ("et", 17),
  ("jo", 18), ("jó", 18),
  ("salmos", 19), ("sl", 19),
  ("proverbios", 20), ("provérbios", 20), ("pv", 20),
  ("eclesiastes", 21), ("ec", 21),
  ("cantares", 22), ("canticos", 22), ("cânticos", 22),
  ("isaias", 23), ("isaías", 23), ("is", 23),
  ("jeremias", 24), ("jr", 24),
  ("lamentacoes", 25), ("lamentações", 25), ("lm", 25),
  ("ezequiel", 26), ("ez", 26),
  ("daniel", 27), ("dn", 27),
  ("oseias", 28), ("oséias", 28),
  ("joel", 29),
  ("amos", 30), ("amós", 30),
  ("obadias", 31),
  ("jonas", 32),
  ("miqueias", 33),
  ("naum", 34),
  ("habacuque", 35),
  ("sofonias", 36),
  ("ageu", 37),
  ("zacarias", 38),
  ("malaquias", 39),
  -- New Testament
  ("mateus", 40), ("mt", 40),
  ("marcos", 41), ("mc", 41),
  ("lucas", 42), ("lc", 42),
  ("joao", 43), ("joão", 43), ("jo", 43),
  ("atos", 44), ("at", 44),
  ("romanos", 45), ("rm", 45),
  ("1 corintios", 46), ("1corintios", 46), ("1 coríntios", 46), ("1coríntios", 46), ("1co", 46), ("1 co", 46),
  ("2 corintios", 47), ("2corintios", 47), ("2 coríntios", 47), ("2coríntios", 47), ("2co", 47), ("2 co", 47),
  ("galatas", 48), ("gálatas", 48), ("gl", 48),
  ("efesios", 49), ("efésios", 49), ("ef", 49),
  ("filipenses", 50),
  ("colossenses", 51),
  ("1 tessalonicenses", 52), ("1tessalonicenses", 52),
  ("2 tessalonicenses", 53), ("2tessalonicenses", 53),
  ("1 timoteo", 54), ("1timóteo", 54), ("1 timóteo", 54),
  ("2 timoteo", 55), ("2timóteo", 55), ("2 timóteo", 55),
  ("tito", 56),
  ("filemom", 57), ("filêmon", 57),
  ("hebreus", 58),
  ("tiago", 59),
  ("1 pedro", 60), ("1pedro", 60),
  ("2 pedro", 61), ("2pedro", 61),
  ("1 joao", 62), ("1joão", 62), ("1 joão", 62),
  ("2 joao", 63), ("2joão", 63), ("2 joão", 63),
  ("3 joao", 64), ("3joão", 64), ("3 joão", 64),
  ("judas", 65),
  ("apocalipse", 66)]

/-- `self.book_mapping.get(k)` / `k in self.book_mapping`: the value of the
    LAST entry binding `k` (duplicate keys in a dict literal overwrite). -/
def lookupBook (k : String) : Option Nat :=
  (book_mapping.reverse.find? (fun e => e.1 == k)).map (·.2)

/-- Matcher for the anchored remainder `\s+(\d+)[,:.](\d+)$` of the regex
    `^(.+?)\s+(\d+)[,:.](\d+)$`.  `\s+` and the first `\d+` are forced to be
    the maximal runs (a shorter run would have to be followed by a character
    of the same class, which contradicts stopping), and the final `(\d+)$`
    must consume the whole rest. -/
def matchTail1 (l : List Char) : Option (Nat × Nat) :=
  let ws := l.takeWhile isPySpace
  let rest1 := l.dropWhile isPySpace
  if ws = [] then none
  else
    let d1 := rest1.takeWhile isAsciiDigit
    let rest2 := rest1.dropWhile isAsciiDigit
    if d1 = [] then none
    else
      match rest2 with
      | [] => none
      | c :: rest3 =>
        if c = ',' ∨ c = ':' ∨ c = '.' then
          if rest3 ≠ [] ∧ rest3.all isAsciiDigit then
            some (digitsToNat d1, digitsToNat rest3)
          else none
        else none

/-- Matcher for the anchored remainder `\s+(\d+)\s+(\d+)$` of the regex
    `^(.+?)\s+(\d+)\s+(\d+)$`. -/
def matchTail2 (l : List Char) : Option (Nat × Nat) :=
  let ws := l.takeWhile isPySpace
  let rest1 := l.dropWhile isPySpace
  if ws = [] then none
  else
    let d1 := rest1.takeWhile isAsciiDigit
    let rest2 := rest1.dropWhile isAsciiDigit
    if d1 = [] then none
    else
      let ws2 := rest2.takeWhile isPySpace
      let rest3 := rest2.dropWhile isPySpace
      if ws2 = [] then none
      else
        if rest3 ≠ [] ∧ rest3.all isAsciiDigit then
          some (digitsToNat d1, digitsToNat rest3)
        else none

/-- The non-greedy group `^(.+?)` of both regexes: try the book prefix from
    the shortest one up, handing the rest of the string to the anchored
    remainder matcher.  `.` does not cross `'\n'`, so a book prefix reaching a
    newline aborts the whole match (no longer prefix can avoid it either).
    `acc` carries the reversed prefix read so far. -/
def findSplit (tailMatch : List Char → Option (Nat × Nat)) :
    List Char → List Char → Option (List Char × Nat × Nat)
  | _, [] => none
  | acc, c :: rest =>
    if c = '\n' then none
    else
      match tailMatch rest with
      | some (a, b) => some ((c :: acc).reverse, a, b)
      | none => findSplit tailMatch (c :: acc) rest

/-- One iteration of the `for pattern in patterns` loop body of
    `parse_citation`: if the regex matches, extract `group(1).strip()` and
    return it with chapter and verse when it is a key of `book_mapping`. -/
def tryPattern (tailMatch : List Char → Option (Nat × Nat)) (cit : List Char) :
    Option (String × Nat × Nat) :=
  match findSplit tailMatch [] cit with
  | some (bk, ch, v) =>
    let b := String.mk (pyStrip bk)
    if (lookupBook b).isSome then some (b, ch, v) else none
  | none => none

/-- `BibleService.parse_citation`: strip and lowercase, then try the two
    grammars in order; a grammar match whose book is not in the table falls
    through to the next grammar, and `None` is returned when both fail. -/
def parse_citation (citation : String) : Option (String × Nat × Nat) :=
  let cit := pyLower (pyStrip citation.data)
  match tryPattern matchTail1 cit with
  | some r => some r
  | none => tryPattern matchTail2 cit

/-- `BibleService.is_bible_citation`. -/
def is_bible_citation (text : String) : Bool :=
  (parse_citation text).isSome

/-- A verse as returned by `BibleService.get_verse` (the derived display
    string `citation`, a pure function of book/chapter/verse, is
    presentation-only and not modelled). -/
structure BibleVerse where
  book : String
  chapter : Nat
  verse : Nat
  text : String
  deriving DecidableEq, Repr

/-- `BibleService.get_verse`, with the scripture-lookup HTTP collaborator
    modelled as `provider : bookNumber → chapter → verse → Option text`
    (`none` for a non-200 response or a body without a `text` field). -/
def get_verse (provider : Nat → Nat → Nat → Option String)
    (book_name : String) (chapter verse : Nat) : Option BibleVerse :=
  match lookupBook (pyLowerStr book_name) with
  | none => none
  | some book_number =>
    match provider book_number chapter verse with
    | none => none
    | some text => some ⟨book_name, chapter, verse, text⟩

/-- `BibleService.get_verse_by_citation`. -/
def get_verse_by_citation (provider : Nat → Nat → Nat → Option String)
    (citation : String) : Option BibleVerse :=
  match parse_citation citation with
  | none => none
  | some (book_name, chapter, verse) => get_verse provider book_name chapter verse

/-! ## EmbeddingService (`app/services/embedding_service.py`)

The Ollama embedding endpoint is modelled as a function from the attempt
index and the timeout used on that attempt to the outcome of the HTTP call.
One call of `generate_embedding` is instrumented with the trace of
`(attempt, timeout)` pairs of the provider calls it makes. -/

/-- Outcome of one `requests.post(.../api/embeddings, ...)` call. -/
inductive ProviderResult where
  /-- The request completed with the given status code; `embedding?` is the
      value of the body's `embedding` field, or `none` when the body has no
      usable `embedding` field (`data['embedding']` raises). -/
  | response (status : Nat) (embedding? : Option (List ℚ))
  /-- `requests.exceptions.Timeout`. -/
  | timeout
  /-- `requests.exceptions.RequestException` (e.g. connection refused). -/
  | requestError
  /-- any other exception -/
  | otherError
  deriving DecidableEq, Repr

/-- `timeout = 180 if attempt == 0 else 60` (line 76 of the source). -/
def attemptTimeout (attempt : Nat) : Nat := if attempt = 0 then 180 else 60

/-- The body of one iteration of the `for attempt in range(retries + 1)`
    loop: `some v` means `return embedding`, `none` means the iteration falls
    into one of the exception/error branches, all of which continue to the
    next attempt (or return `None` when the budget is exhausted). -/
def embedStep (r : ProviderResult) : Option (List ℚ) :=
  match r with
  | .response status embedding? =>
    if status = 200 then
      match embedding? with
      | some v => some v -- np.array(data['embedding'], ...) succeeds
      | none => none     -- KeyError, caught by the generic `except Exception`
    else none            -- logged Ollama API error, retried
  | .timeout => none     -- except requests.exceptions.Timeout
  | .requestError => none -- except requests.exceptions.RequestException
  | .otherError => none  -- except Exception

/-- The attempt loop of `generate_embedding`, instrumented with the list of
    `(attempt, timeout)` pairs of provider calls made. `fuel` is the number
    of attempts remaining (`retries + 1` at the start). -/
def embedRun (provider : Nat → Nat → ProviderResult) :
    Nat → Nat → Option (List ℚ) × List (Nat × Nat)
  | _, 0 => (none, [])
  | attempt, fuel + 1 =>
    let t := attemptTimeout attempt
    match embedStep (provider attempt t) with
    | some v => (some v, [(attempt, t)])
    | none =>
      let r := embedRun provider (attempt + 1) fuel
      (r.1, (attempt, t) :: r.2)

/-- `EmbeddingService.generate_embedding`: empty or whitespace-only text is
    rejected before any provider call; otherwise run up to `retries + 1`
    attempts.  Returns the result (`none` models `return None`) and the
    instrumented call trace. -/
def generate_embedding (provider : Nat → Nat → ProviderResult)
    (text : String) (retries : Nat) : Option (List ℚ) × List (Nat × Nat) :=
  if pyStrip text.data = [] then (none, [])
  else embedRun provider 0 (retries + 1)

/-- A transport failure in the sense of the spec: timeout, connection
    failure, or a completed response with a non-200 status. -/
def isTransportFailure : ProviderResult → Bool
  | .timeout => true
  | .requestError => true
  | .response status _ => status != 200
  | .otherError => false

/-! ### Cosine similarity

`EmbeddingService.cosine_similarity` and the identical private copy
`MongoDatabase._cosine_similarity`.  `np.linalg.norm` is the square root of
the sum of squares; over `ℚ` the square root is modelled by `ratSqrt`,
which is exact on perfect squares and satisfies `ratSqrt q = 0 ↔ q = 0` for
`q ≥ 0`, so the zero-norm guard coincides exactly with the real guard. -/

/-- `np.dot`. -/
def dotProduct : List ℚ → List ℚ → ℚ
  | [], _ => 0
  | _, [] => 0
  | a :: as_, b :: bs => a * b + dotProduct as_ bs

/-- Sum of squares of the entries. -/
def normSq (v : List ℚ) : ℚ := (v.map (fun x => x * x)).sum

/-- Computable rational square root: exact on perfect squares and zero
    exactly at zero (for non-negative input). -/
def ratSqrt (q : ℚ) : ℚ := (Nat.sqrt (q.num.toNat * q.den) : ℚ) / (q.den : ℚ)

/-- `np.linalg.norm`. -/
def norm (v : List ℚ) : ℚ := ratSqrt (normSq v)

/-- `cosine_similarity(vec1, vec2)`: 0.0 when either norm is zero, the
    normalized dot product otherwise. -/
def cosine_similarity (vec1 vec2 : List ℚ) : ℚ :=
  let dot_product := dotProduct vec1 vec2
  let norm_vec1 := norm vec1
  let norm_vec2 := norm vec2
  if norm_vec1 = 0 ∨ norm_vec2 = 0 then 0
  else dot_product / (norm_vec1 * norm_vec2)

/-! ## MongoDatabase (`app/services/mongodb_database.py`)

The `text_records` collection is modelled as a list of documents in natural
(insertion) order, which is the order an unsorted `find` iterates.
ObjectIds are `Nat`, `datetime.utcnow()` values are `Nat` clock readings
passed in by the caller. -/

/-- One document of the `text_records` collection. -/
structure StoredDoc where
  id : Nat
  title : String
  /-- `title_lower`, maintained for the case-insensitive uniqueness check -/
  title_lower : String
  extracted_text : String
  /-- `none` models a document whose `embedding` field is absent or null -/
  embedding : Option (List ℚ)
  image_filename : Option String
  created_at : Nat
  word_count : Nat
  character_count : Nat
  updated_at : Option Nat
  deriving DecidableEq, Repr

/-- `MongoDatabase.check_title_exists`: `find_one({"title_lower":
    title.lower().strip()})` — the first document in natural order whose
    `title_lower` equals the normalized argument. -/
def check_title_exists (store : List StoredDoc) (title : String) : Option StoredDoc :=
  store.find? (fun d => d.title_lower == pyStripStr (pyLowerStr title))

/-- `MongoDatabase.insert_record`: append a new document; `title_lower` is
    `title.lower().strip()`, `created_at` is the current time. -/
def insert_record (store : List StoredDoc) (record_id : Nat) (title text : String)
    (embedding : List ℚ) (filename : Option String) (now : Nat) : List StoredDoc :=
  store ++ [{
    id := record_id
    title := title
    title_lower := pyStripStr (pyLowerStr title)
    extracted_text := text
    embedding := some embedding
    image_filename := filename
    created_at := now
    word_count := pyWordCount text
    character_count := text.data.length
    updated_at := none }]

/-- `MongoDatabase.update_record`: `update_one({"_id": id}, {"$set": ...})`.
    Returns the new store and whether a document was modified (the `$set`
    always rewrites `updated_at`, so a matched document is a modified one). -/
def update_record (store : List StoredDoc) (record_id : Nat) (title text : String)
    (embedding : List ℚ) (now : Nat) : List StoredDoc × Bool :=
  (store.map (fun d =>
      if d.id = record_id then
        { d with
          title := title
          title_lower := pyStripStr (pyLowerStr title)
          extracted_text := text
          embedding := some embedding
          word_count := pyWordCount text
          character_count := text.data.length
          updated_at := some now }
      else d),
   store.any (fun d => d.id == record_id))

/-- One entry of the result list built by `MongoDatabase.search_similar`. -/
structure RankedResult where
  id : Nat
  title : String
  extracted_text : String
  image_filename : Option String
  similarity_score : ℚ
  created_at : Nat
  deriving DecidableEq, Repr

/-- Stable insertion of `x` into a score-descending list: `x` goes in front
    of the first element whose score is at most `x`'s.  Elements that score
    strictly higher keep preceding `x`; elements that tie with `x` end up
    after it — and since `sortDesc` inserts earlier elements of the original
    list last, original order among ties is preserved. -/
def insertDesc (x : RankedResult) : List RankedResult → List RankedResult
  | [] => [x]
  | y :: ys =>
    if y.similarity_score ≤ x.similarity_score then x :: y :: ys
    else y :: insertDesc x ys

/-- `results.sort(key=lambda x: x["similarity_score"], reverse=True)`:
    Python's sort is stable, so it is modelled by a stable insertion sort
    (extensionally equal to any stable score-descending sort). -/
def sortDesc : List RankedResult → List RankedResult
  | [] => []
  | x :: xs => insertDesc x (sortDesc xs)

/-- The scoring pass of `search_similar`: documents whose `embedding` field
    is absent or null are excluded by the Mongo filter
    `{"embedding": {"$exists": True, "$ne": None}}` before any scoring. -/
def scoredResults (query_embedding : List ℚ) (docs : List StoredDoc) : List RankedResult :=
  docs.filterMap (fun d =>
    d.embedding.map (fun e =>
      { id := d.id
        title := d.title
        extracted_text := d.extracted_text
        image_filename := d.image_filename
        similarity_score := cosine_similarity query_embedding e
        created_at := d.created_at }))

/-- `limit = max(1, min(limit, 100))` (line 110 of the source). -/
def clampLimit (limit : Int) : Int := max 1 (min limit 100)

/-- `MongoDatabase.search_similar`: score every document that has a vector,
    sort by similarity descending (stable), return the first `limit`. -/
def search_similar (query_embedding : List ℚ) (limit : Int) (docs : List StoredDoc) :
    List RankedResult :=
  (sortDesc (scoredResults query_embedding docs)).take (clampLimit limit).toNat

/-! ## Orchestrators (`main.py`) -/

/-- Outcome of `add_record` (`POST /add-record`). -/
inductive AddOutcome where
  /-- HTTP 400 `Título não pode estar vazio` -/
  | emptyTitle
  /-- HTTP 400 `Conteúdo não pode estar vazio` -/
  | emptyContent
  /-- the `duplicate_detected` JSON response, reporting the existing record -/
  | duplicate (existingId : Nat) (existingTitle : String)
  /-- HTTP 500 `Failed to generate embedding` -/
  | embedFailed
  /-- the success JSON response -/
  | added (recordId : Nat)
  deriving DecidableEq, Repr

/-- `add_record` of `main.py`: strip inputs, reject empties, refuse a
    duplicate normalized title (reporting the existing record, leaving the
    store unchanged), otherwise embed and insert.  The embedding client is a
    parameter `embed`; `nextId`/`now` model the id and timestamp the store
    would assign. -/
def add_record (embed : String → Option (List ℚ)) (store : List StoredDoc)
    (nextId : Nat) (now : Nat) (title content : String) : AddOutcome × List StoredDoc :=
  let t := pyStripStr title
  let c := pyStripStr content
  if t = "" then (.emptyTitle, store)
  else if c = "" then (.emptyContent, store)
  else
    match check_title_exists store t with
    | some existing => (.duplicate existing.id existing.title, store)
    | none =>
      match embed c with
      | none => (.embedFailed, store)
      | some e => (.added nextId, insert_record store nextId t c e none now)

/-- Outcome of `search_similar_texts` (`POST /search`). -/
inductive SearchOutcome where
  /-- HTTP 400 `Consulta de busca não pode estar vazia` -/
  | emptyQuery
  /-- the `success: False` JSON response for an unresolved citation, carrying
      the echoed query string -/
  | citationNotFound (query : String)
  /-- HTTP 500 `Falha ao gerar embedding...` -/
  | embeddingFailed
  /-- the success JSON response: echoed query, the text actually embedded,
      the detected citation's book and verse text when applicable, and the
      ranked results -/
  | results (query searchText : String) (citation : Option (String × String))
      (res : List RankedResult)
  deriving DecidableEq, Repr

/-- `search_similar_texts` of `main.py`, instrumented with the list of texts
    sent to the embedding client (second component): citation queries are
    resolved to verse text first; an unresolved citation terminates without
    any embedding call; otherwise the search text is embedded and ranked
    against the store with limit 10. -/
def search_similar_texts (verseProvider : Nat → Nat → Nat → Option String)
    (embed : String → Option (List ℚ)) (docs : List StoredDoc) (query : String) :
    SearchOutcome × List String :=
  if pyStripStr query = "" then (.emptyQuery, [])
  else
    let q := pyStripStr query
    if is_bible_citation q then
      match get_verse_by_citation verseProvider q with
      | some bv =>
        match embed bv.text with
        | none => (.embeddingFailed, [bv.text])
        | some e =>
          (.results q bv.text (some (bv.book, bv.text)) (search_similar e 10 docs),
           [bv.text])
      | none => (.citationNotFound q, [])
    else
      match embed q with
      | none => (.embeddingFailed, [q])
      | some e => (.results q q none (search_similar e 10 docs), [q])

/-! ### Auxiliary definitions for the theorems below -/

/-- Provider for the C1 witness: times out on attempt 0, succeeds on attempt 1. -/
def providerRetryWitness : Nat → Nat → ProviderResult :=
  fun i _ => if i = 0 then .timeout else .response 200 (some [1])

/-- Provider for the C2 counterexample: a 200 response whose body has no
    usable `embedding` field on attempt 0, a successful response afterwards. -/
def providerMalformed200 : Nat → Nat → ProviderResult :=
  fun i _ => if i = 0 then .response 200 none else .response 200 (some [1])

/-- Replace a provider's behaviour at attempt `k` by the fixed outcome `r`. -/
def setAttempt (provider : Nat → Nat → ProviderResult) (k : Nat) (r : ProviderResult) :
    Nat → Nat → ProviderResult :=
  fun i t => if i = k then r else provider i t

/-- Decidable form of "this grammar match (if any) extracted a book that is
    not a key of the alias table". -/
def bookUnknown : Option (List Char × Nat × Nat) → Bool
  | none => true
  | some (bk, _, _) => (lookupBook (String.mk (pyStrip bk))).isNone

/-- Scripture-lookup collaborator that never finds a verse (for the C5 witness). -/
def verseProviderNone : Nat → Nat → Nat → Option String := fun _ _ _ => none

/-- Embedding client that always returns the vector `[1]` (for witnesses). -/
def embedConst1 : String → Option (List ℚ) := fun _ => some [1]

/-- The document stored by the first insert of the C6 witness scenario. -/
def docSalmo : StoredDoc :=
  { id := 0
    title := "Salmo 23"
    title_lower := "salmo 23"
    extracted_text := "conteudo"
    embedding := some [1]
    image_filename := none
    created_at := 5
    word_count := 1
    character_count := 8
    updated_at := none }

/-- The C10 invariant: every stored document's `title_lower` is the
    lowercased, trimmed form of its `title`. -/
def NormOk (store : List StoredDoc) : Prop :=
  ∀ d ∈ store, d.title_lower = pyLowerStr (pyStripStr d.title)

/-! ## Theorems

### Retry policy of `generate_embedding` (C1, C2) -/

/-! ### Lemmas about the Python string primitives -/

theorem isPySpace_pyLowerChar (c : Char) : isPySpace (pyLowerChar c) = isPySpace c := by
  unfold pyLowerChar
  split
  · rename_i h
    have hval : (Char.ofNat (c.toNat + 32)).toNat = c.toNat + 32 := by
      rw [Char.ofNat, dif_pos (Or.inl (by omega : c.toNat + 32 < 0xd800))]
      simp [Char.ofNatAux, Char.toNat, UInt32.ofNat', UInt32.toNat]
    have h1 : isPySpace c = false := by
      simp only [isPySpace, Bool.or_eq_false_iff, decide_eq_false_iff_not]
      omega
    have h2 : isPySpace (Char.ofNat (c.toNat + 32)) = false := by
      simp only [isPySpace, hval, Bool.or_eq_false_iff, decide_eq_false_iff_not]
      omega
    rw [h1, h2]
  · rfl

theorem trimLeft_pyLower (l : List Char) :
    trimLeft (pyLower l) = pyLower (trimLeft l) := by
  unfold trimLeft pyLower
  rw [List.dropWhile_map]
  have hfun : (isPySpace ∘ pyLowerChar) = isPySpace := by
    funext c
    simp [Function.comp, isPySpace_pyLowerChar]
  rw [hfun]

theorem pyStrip_pyLower (l : List Char) :
    pyStrip (pyLower l) = pyLower (pyStrip l) := by
  have hrev : ∀ m : List Char, (pyLower m).reverse = pyLower m.reverse := by
    intro m; unfold pyLower; exact (List.map_reverse _ _).symm
  unfold pyStrip trimRight
  rw [trimLeft_pyLower, hrev, trimLeft_pyLower, hrev]

theorem head?_dropWhile_not (p : Char → Bool) :
    ∀ (l : List Char) (c : Char), (l.dropWhile p).head? = some c → p c = false := by
  intro l
  induction l with
  | nil => intro c h; simp at h
  | cons a t ih =>
    intro c h
    by_cases hp : p a
    · rw [List.dropWhile_cons_of_pos hp] at h; exact ih c h
    · rw [List.dropWhile_cons_of_neg hp] at h
      simp at h
      subst h
      simpa using hp

theorem dropWhile_eq_self_of_head (p : Char → Bool) (l : List Char)
    (h : ∀ c, l.head? = some c → p c = false) : l.dropWhile p = l := by
  cases l with
  | nil => rfl
  | cons a t =>
    have := h a rfl
    simp [List.dropWhile_cons, this]

theorem trimLeft_idem (l : List Char) : trimLeft (trimLeft l) = trimLeft l := by
  unfold trimLeft
  exact dropWhile_eq_self_of_head _ _ (fun c hc => head?_dropWhile_not _ _ _ hc)

theorem trimRight_idem (l : List Char) : trimRight (trimRight l) = trimRight l := by
  unfold trimRight
  rw [List.reverse_reverse, trimLeft_idem]

/-- A right trim only removes a suffix, so it keeps the head of the list. -/
theorem head?_trimRight (l : List Char) (c : Char) (h : (trimRight l).head? = some c) :
    l.head? = some c := by
  unfold trimRight trimLeft at h
  obtain ⟨pre, hpre⟩ := List.dropWhile_suffix (l := l.reverse) (p := isPySpace)
  have hl : l = (l.reverse.dropWhile isPySpace).reverse ++ pre.reverse := by
    have h2 := congrArg List.reverse hpre
    rw [List.reverse_append, List.reverse_reverse] at h2
    exact h2.symm
  rw [hl, List.head?_append, h, Option.or_some]

theorem trimLeft_trimRight_trimLeft (l : List Char) :
    trimLeft (trimRight (trimLeft l)) = trimRight (trimLeft l) := by
  apply dropWhile_eq_self_of_head
  intro c hc
  exact head?_dropWhile_not _ _ _ (head?_trimRight _ _ hc)

theorem pyStrip_idem (l : List Char) : pyStrip (pyStrip l) = pyStrip l := by
  unfold pyStrip
  rw [trimLeft_trimRight_trimLeft, trimRight_idem]

/-- Trimming then lowering agrees with lowering then trimming (the source
    computes `title.lower().strip()`, the spec states `lower(trim(title))`). -/
theorem pyStrip_pyLower_comm (l : List Char) :
    pyStrip (pyLower l) = pyLower (pyStrip l) := pyStrip_pyLower l


theorem embedStep_eq_none_of_transport (r : ProviderResult)
    (h : isTransportFailure r = true) : embedStep r = none := by
  cases r with
  | response status embedding? =>
    simp only [isTransportFailure, bne_iff_ne, ne_eq, decide_eq_true_eq] at h
    simp [embedStep, h]
  | timeout => rfl
  | requestError => rfl
  | otherError => simp [isTransportFailure] at h

theorem embedRun_length_le (provider : Nat → Nat → ProviderResult) :
    ∀ (fuel attempt : Nat), (embedRun provider attempt fuel).2.length ≤ fuel := by
  intro fuel
  induction fuel with
  | zero => intro attempt; simp [embedRun]
  | succ n ih =>
    intro attempt
    unfold embedRun
    cases h : embedStep (provider attempt (attemptTimeout attempt)) with
    | some v => simp [h]
    | none => simpa [h] using ih (attempt + 1)

theorem embedRun_trace_timeouts (provider : Nat → Nat → ProviderResult) :
    ∀ (fuel attempt : Nat), ∀ p ∈ (embedRun provider attempt fuel).2,
      p.2 = attemptTimeout p.1 := by
  intro fuel
  induction fuel with
  | zero => intro attempt p hp; simp [embedRun] at hp
  | succ n ih =>
    intro attempt p hp
    unfold embedRun at hp
    cases h : embedStep (provider attempt (attemptTimeout attempt)) with
    | some v =>
      simp [h] at hp
      simp [hp]
    | none =>
      simp [h] at hp
      rcases hp with hp | hp
      · simp [hp]
      · exact ih (attempt + 1) p hp

theorem embedRun_success (provider : Nat → Nat → ProviderResult) :
    ∀ (fuel attempt k : Nat) (v : List ℚ), k < fuel →
      (∀ j, j < k → embedStep (provider (attempt + j) (attemptTimeout (attempt + j))) = none) →
      embedStep (provider (attempt + k) (attemptTimeout (attempt + k))) = some v →
      (embedRun provider attempt fuel).1 = some v := by
  intro fuel
  induction fuel with
  | zero => intro attempt k v hk; omega
  | succ n ih =>
    intro attempt k v hk hfail hsucc
    unfold embedRun
    cases h : embedStep (provider attempt (attemptTimeout attempt)) with
    | some w =>
      cases k with
      | zero =>
        simp only [Nat.add_zero] at hsucc
        rw [h] at hsucc
        simp only [h]
        simpa using hsucc
      | succ k0 =>
        have := hfail 0 (by omega)
        simp only [Nat.add_zero] at this
        rw [h] at this
        exact absurd this (by simp)
    | none =>
      cases k with
      | zero =>
        simp only [Nat.add_zero] at hsucc
        rw [h] at hsucc
        exact absurd hsucc (by simp)
      | succ k0 =>
        simp only [h]
        apply ih (attempt + 1) k0 v (by omega)
        · intro j hj
          have := hfail (j + 1) (by omega)
          have harith : attempt + (j + 1) = attempt + 1 + j := by omega
          rwa [harith] at this
        · have harith : attempt + (k0 + 1) = attempt + 1 + k0 := by omega
          rwa [harith] at hsucc

theorem embedRun_all_fail (provider : Nat → Nat → ProviderResult) :
    ∀ (fuel attempt : Nat),
      (∀ j, j < fuel → embedStep (provider (attempt + j) (attemptTimeout (attempt + j))) = none) →
      (embedRun provider attempt fuel).1 = none := by
  intro fuel
  induction fuel with
  | zero => intro attempt _; simp [embedRun]
  | succ n ih =>
    intro attempt hfail
    unfold embedRun
    have h0 := hfail 0 (by omega)
    simp only [Nat.add_zero] at h0
    simp only [h0]
    apply ih (attempt + 1)
    intro j hj
    have := hfail (j + 1) (by omega)
    have harith : attempt + (j + 1) = attempt + 1 + j := by omega
    rwa [harith] at this

/-- C1: for every input text and every `retries` value, `generate_embedding`
    makes at most `retries + 1` provider attempts, with timeout 180 on
    attempt 0 and 60 on every later attempt; if attempt `k ≤ retries`
    succeeds after transport failures on all earlier attempts, its vector is
    returned; and if all `retries + 1` attempts fail with transport failures
    the call returns `none` (`EmbeddingUnavailable`). -/
theorem generate_embedding_retry_policy
    (provider : Nat → Nat → ProviderResult) (text : String) (retries : Nat) :
    (generate_embedding provider text retries).2.length ≤ retries + 1
    ∧ (∀ p ∈ (generate_embedding provider text retries).2,
        p.2 = if p.1 = 0 then 180 else 60)
    ∧ (∀ k v, k ≤ retries →
        (∀ j, j < k → isTransportFailure (provider j (attemptTimeout j)) = true) →
        provider k (attemptTimeout k) = .response 200 (some v) →
        pyStrip text.data ≠ [] →
        (generate_embedding provider text retries).1 = some v)
    ∧ ((∀ j, j ≤ retries → isTransportFailure (provider j (attemptTimeout j)) = true) →
        (generate_embedding provider text retries).1 = none) := by
  unfold generate_embedding
  by_cases hempty : pyStrip text.data = []
  · simp [hempty]
  · simp only [hempty, if_neg (by simpa using hempty)]
    refine ⟨embedRun_length_le provider (retries + 1) 0, ?_, ?_, ?_⟩
    · intro p hp
      have := embedRun_trace_timeouts provider (retries + 1) 0 p hp
      simpa [attemptTimeout] using this
    · intro k v hk hfail hsucc _
      apply embedRun_success provider (retries + 1) 0 k v (by omega)
      · intro j hj
        simpa using embedStep_eq_none_of_transport _ (hfail j hj)
      · simpa using (by rw [hsucc] : embedStep (provider k (attemptTimeout k)) = embedStep (.response 200 (some v)))
    · intro hfail
      apply embedRun_all_fail provider (retries + 1) 0
      intro j hj
      simpa using embedStep_eq_none_of_transport _ (hfail j (by omega))

/-- Witness for C1 at a concrete provider: the timeout on attempt 0 is a
    transport failure, attempt 1 succeeds, and the call returns attempt 1's
    vector. -/
theorem generate_embedding_retry_policy_witness :
    (1 ≤ 2 ∧ (∀ j, j < 1 → isTransportFailure (providerRetryWitness j (attemptTimeout j)) = true)
      ∧ providerRetryWitness 1 (attemptTimeout 1) = .response 200 (some [1])
      ∧ pyStrip "test".data ≠ [])
    ∧ (generate_embedding providerRetryWitness "test" 2).1 = some [1] :=
  ⟨⟨by omega, by decide, by decide, by decide⟩,
    (generate_embedding_retry_policy providerRetryWitness "test" 2).2.2.1 1 [1]
      (by omega) (by decide) (by decide) (by decide)⟩

/-- C2 counterexample: on a 200 response without a usable vector,
    `generate_embedding` makes a SECOND provider attempt (the trace has two
    entries) and returns that attempt's vector — the malformed response is
    retried, and no error is surfaced for it. -/
theorem malformed200_is_retried :
    generate_embedding providerMalformed200 "test" 2
      = (some [1], [(0, 180), (1, 60)]) := by decide

theorem embedRun_congr (p1 p2 : Nat → Nat → ProviderResult)
    (h : ∀ i t, embedStep (p1 i t) = embedStep (p2 i t)) :
    ∀ (fuel attempt : Nat), embedRun p1 attempt fuel = embedRun p2 attempt fuel := by
  intro fuel
  induction fuel with
  | zero => intro attempt; rfl
  | succ n ih =>
    intro attempt
    unfold embedRun
    dsimp only
    rw [h attempt (attemptTimeout attempt)]
    cases embedStep (p2 attempt (attemptTimeout attempt)) with
    | some v => rfl
    | none => rw [ih (attempt + 1)]

/-- C2 amended: a 200 response whose body lacks a usable vector is treated
    exactly like a transport timeout — retried while budget remains, and
    `none` after exhaustion; there is no distinct malformed-response
    outcome and no early stop. -/
theorem malformed200_behaves_like_timeout
    (provider : Nat → Nat → ProviderResult) (k : Nat) (text : String) (retries : Nat) :
    generate_embedding (setAttempt provider k (.response 200 none)) text retries
      = generate_embedding (setAttempt provider k .timeout) text retries := by
  unfold generate_embedding
  by_cases hempty : pyStrip text.data = []
  · simp [hempty]
  · simp only [hempty, if_neg (by simpa using hempty)]
    apply embedRun_congr
    intro i t
    unfold setAttempt
    by_cases hik : i = k
    · simp [hik, embedStep]
    · simp [hik]

/-! ### Ranking (C7, C9) -/

theorem mem_insertDesc (x b : RankedResult) :
    ∀ (l : List RankedResult), b ∈ insertDesc x l ↔ b = x ∨ b ∈ l := by
  intro l
  induction l with
  | nil => simp [insertDesc]
  | cons y ys ih =>
    unfold insertDesc
    split
    · simp
    · simp only [List.mem_cons, ih]
      tauto

theorem sorted_insertDesc (x : RankedResult) :
    ∀ (l : List RankedResult),
      l.Pairwise (fun a b => b.similarity_score ≤ a.similarity_score) →
      (insertDesc x l).Pairwise (fun a b => b.similarity_score ≤ a.similarity_score) := by
  intro l
  induction l with
  | nil => intro _; simp [insertDesc]
  | cons y ys ih =>
    intro hl
    unfold insertDesc
    split
    · rename_i hyx
      refine List.Pairwise.cons ?_ hl
      intro b hb
      rcases List.mem_cons.mp hb with hb | hb
      · subst hb; exact hyx
      · exact le_trans (List.rel_of_pairwise_cons hl hb) hyx
    · rename_i hyx
      push_neg at hyx
      refine List.Pairwise.cons ?_ (ih (List.Pairwise.of_cons hl))
      intro b hb
      rcases (mem_insertDesc x b ys).mp hb with hb | hb
      · subst hb; exact le_of_lt hyx
      · exact List.rel_of_pairwise_cons hl hb

theorem sorted_sortDesc :
    ∀ (l : List RankedResult),
      (sortDesc l).Pairwise (fun a b => b.similarity_score ≤ a.similarity_score) := by
  intro l
  induction l with
  | nil => simp [sortDesc]
  | cons x xs ih => exact sorted_insertDesc x (sortDesc xs) ih

theorem length_insertDesc (x : RankedResult) :
    ∀ (l : List RankedResult), (insertDesc x l).length = l.length + 1 := by
  intro l
  induction l with
  | nil => rfl
  | cons y ys ih =>
    unfold insertDesc
    split
    · simp
    · simp [ih]

theorem length_sortDesc :
    ∀ (l : List RankedResult), (sortDesc l).length = l.length := by
  intro l
  induction l with
  | nil => rfl
  | cons x xs ih => simp [sortDesc, length_insertDesc, ih]

theorem filter_insertDesc (x : RankedResult) (c : ℚ) :
    ∀ (l : List RankedResult),
      l.Pairwise (fun a b => b.similarity_score ≤ a.similarity_score) →
      (insertDesc x l).filter (fun r => r.similarity_score == c)
        = if x.similarity_score == c
          then x :: l.filter (fun r => r.similarity_score == c)
          else l.filter (fun r => r.similarity_score == c) := by
  intro l
  induction l with
  | nil =>
    intro _
    simp only [insertDesc, List.filter]
    split <;> rename_i h <;> simp [h]
  | cons y ys ih =>
    intro hl
    unfold insertDesc
    split
    · rename_i hyx
      rw [List.filter_cons]
    · rename_i hyx
      push_neg at hyx
      rw [List.filter_cons, ih (List.Pairwise.of_cons hl)]
      by_cases hx : x.similarity_score = c
      · have hy : (y.similarity_score == c) = false := by
          simp only [beq_eq_false_iff_ne, ne_eq]
          intro hyc
          rw [hyc, ← hx] at hyx
          exact absurd hyx (lt_irrefl _)
        simp [hx, hy, List.filter_cons]
      · have hx' : (x.similarity_score == c) = false := by
          simpa using hx
        simp [hx', List.filter_cons]

theorem filter_sortDesc (c : ℚ) :
    ∀ (l : List RankedResult),
      (sortDesc l).filter (fun r => r.similarity_score == c)
        = l.filter (fun r => r.similarity_score == c) := by
  intro l
  induction l with
  | nil => rfl
  | cons x xs ih =>
    show (insertDesc x (sortDesc xs)).filter _ = _
    rw [filter_insertDesc x c (sortDesc xs) (sorted_sortDesc xs), ih, List.filter_cons]

theorem scoredResults_length (q : List ℚ) :
    ∀ (docs : List StoredDoc),
      (scoredResults q docs).length
        = (docs.filter (fun d => d.embedding.isSome)).length := by
  intro docs
  induction docs with
  | nil => rfl
  | cons d ds ih =>
    unfold scoredResults at ih ⊢
    cases hd : d.embedding with
    | none => simp [List.filterMap_cons, List.filter_cons, hd, ih]
    | some e => simp [List.filterMap_cons, List.filter_cons, hd, ih]

theorem scoredResults_filter (q : List ℚ) :
    ∀ (docs : List StoredDoc),
      scoredResults q (docs.filter (fun d => d.embedding.isSome))
        = scoredResults q docs := by
  intro docs
  induction docs with
  | nil => rfl
  | cons d ds ih =>
    unfold scoredResults at ih ⊢
    cases hd : d.embedding with
    | none => simp [List.filter_cons, List.filterMap_cons, hd, ih]
    | some e => simp [List.filter_cons, List.filterMap_cons, hd, ih]

/-- C7: `search_similar` returns at most `clamp(limit, 1, 100)` results and
    never more than the number of candidate documents possessing a vector;
    documents without a vector are excluded before scoring — removing them
    from the input changes nothing. -/
theorem search_similar_limit (q : List ℚ) (limit : Int) (docs : List StoredDoc) :
    (search_similar q limit docs).length ≤ (clampLimit limit).toNat
    ∧ (search_similar q limit docs).length
        ≤ (docs.filter (fun d => d.embedding.isSome)).length
    ∧ search_similar q limit docs
        = search_similar q limit (docs.filter (fun d => d.embedding.isSome)) := by
  refine ⟨?_, ?_, ?_⟩
  · unfold search_similar
    rw [List.length_take]
    exact min_le_left _ _
  · unfold search_similar
    rw [List.length_take]
    calc (clampLimit limit).toNat ⊓ (sortDesc (scoredResults q docs)).length
        ≤ (sortDesc (scoredResults q docs)).length := min_le_right _ _
      _ = (scoredResults q docs).length := length_sortDesc _
      _ = (docs.filter (fun d => d.embedding.isSome)).length := scoredResults_length q docs
  · unfold search_similar
    rw [scoredResults_filter]

/-- C9: ranking is deterministic — the pure ranking pipeline yields the same
    ordered list on every invocation with the same inputs — the output is
    sorted by similarity score descending, and the sort is stable: for every
    score value, the results carrying that score appear in exactly the order
    the corresponding candidates occur in the scored candidate sequence. -/
theorem search_similar_deterministic_stable (q : List ℚ) (limit : Int)
    (docs : List StoredDoc) :
    search_similar q limit docs = search_similar q limit docs
    ∧ (search_similar q limit docs).Pairwise
        (fun a b => b.similarity_score ≤ a.similarity_score)
    ∧ ∀ c : ℚ,
        (sortDesc (scoredResults q docs)).filter (fun r => r.similarity_score == c)
          = (scoredResults q docs).filter (fun r => r.similarity_score == c) :=
  ⟨rfl,
   List.Pairwise.sublist (List.take_sublist _ _) (sorted_sortDesc _),
   fun c => filter_sortDesc c (scoredResults q docs)⟩

/-! ### Cosine similarity guard (C8) -/

theorem ratSqrt_zero : ratSqrt 0 = 0 := by
  norm_num [ratSqrt]

theorem normSq_of_all_zero (v : List ℚ) (h : ∀ x ∈ v, x = 0) : normSq v = 0 := by
  induction v with
  | nil => rfl
  | cons x t ih =>
    have hx : x = 0 := h x (List.mem_cons_self x t)
    have ht := ih (fun y hy => h y (List.mem_cons_of_mem x hy))
    simp only [normSq, List.map_cons, List.sum_cons] at ht ⊢
    rw [hx, ht]
    ring

/-- C8: the division in `cosine_similarity` is guarded — whenever either
    vector has zero norm (in particular whenever either vector is all
    zeros), the function returns exactly `0` instead of dividing; and in the
    branch where it does divide, the divisor is provably nonzero. -/
theorem cosine_similarity_guard (v1 v2 : List ℚ) :
    ((norm v1 = 0 ∨ norm v2 = 0) → cosine_similarity v1 v2 = 0)
    ∧ ((∀ x ∈ v1, x = 0) → norm v1 = 0)
    ∧ (norm v1 ≠ 0 → norm v2 ≠ 0 →
        norm v1 * norm v2 ≠ 0
        ∧ cosine_similarity v1 v2 = dotProduct v1 v2 / (norm v1 * norm v2)) := by
  refine ⟨?_, ?_, ?_⟩
  · intro h
    unfold cosine_similarity
    exact if_pos h
  · intro h
    unfold norm
    rw [normSq_of_all_zero v1 h, ratSqrt_zero]
  · intro h1 h2
    refine ⟨mul_ne_zero h1 h2, ?_⟩
    unfold cosine_similarity
    exact if_neg (by tauto)

/-- Witness for C8: the zero vector `[0, 0]` has zero norm and its cosine
    similarity against `[1, 2]` is exactly `0`. -/
theorem cosine_similarity_guard_witness :
    norm [(0 : ℚ), 0] = 0 ∧ cosine_similarity [(0 : ℚ), 0] [(1 : ℚ), 2] = 0 := by
  have hz : norm [(0 : ℚ), 0] = 0 := by
    have hsq : normSq [(0 : ℚ), 0] = 0 := by simp [normSq]
    rw [norm, hsq, ratSqrt_zero]
  exact ⟨hz, (cosine_similarity_guard [(0 : ℚ), 0] [(1 : ℚ), 2]).1 (Or.inl hz)⟩

/-! ### Citation parsing (C3, C4) -/

theorem tryPattern_eq_none_of_unknown (tailMatch : List Char → Option (Nat × Nat))
    (cit : List Char) (h : bookUnknown (findSplit tailMatch [] cit) = true) :
    tryPattern tailMatch cit = none := by
  unfold tryPattern
  cases hf : findSplit tailMatch [] cit with
  | none => rfl
  | some r =>
    obtain ⟨bk, ch, v⟩ := r
    rw [hf] at h
    simp only [bookUnknown, Option.isNone_iff_eq_none] at h
    simp [h]

theorem lookup_isSome_of_tryPattern (tailMatch : List Char → Option (Nat × Nat))
    (cit : List Char) (b : String) (ch v : Nat)
    (h : tryPattern tailMatch cit = some (b, ch, v)) :
    (lookupBook b).isSome = true := by
  unfold tryPattern at h
  cases hf : findSplit tailMatch [] cit with
  | none => rw [hf] at h; exact absurd h (by simp)
  | some r =>
    obtain ⟨bk, ch2, v2⟩ := r
    rw [hf] at h
    dsimp only at h
    split at h
    · rename_i hl
      injection h with h'
      have hb : String.mk (pyStrip bk) = b := congrArg Prod.fst h'
      rw [← hb]
      exact hl
    · exact absurd h (by simp)

/-- C3: `parse_citation` succeeds only with a book string that is verbatim a
    key of the alias table (no fuzzy or partial matching), and whenever each
    grammar either fails or extracts a book that is not a table key, the
    result is `none` — in particular, a string matching the grammar with an
    unknown book name is not a citation. -/
theorem parse_citation_unknown_book (s : String) :
    (∀ b ch v, parse_citation s = some (b, ch, v) → (lookupBook b).isSome = true)
    ∧ (bookUnknown (findSplit matchTail1 [] (pyLower (pyStrip s.data))) = true →
       bookUnknown (findSplit matchTail2 [] (pyLower (pyStrip s.data))) = true →
       parse_citation s = none) := by
  constructor
  · intro b ch v h
    unfold parse_citation at h
    dsimp only at h
    cases h1 : tryPattern matchTail1 (pyLower (pyStrip s.data)) with
    | some r =>
      rw [h1] at h
      dsimp only at h
      injection h with h'
      subst h'
      exact lookup_isSome_of_tryPattern _ _ _ _ _ h1
    | none =>
      rw [h1] at h
      dsimp only at h
      exact lookup_isSome_of_tryPattern _ _ _ _ _ h
  · intro h1 h2
    unfold parse_citation
    dsimp only
    rw [tryPattern_eq_none_of_unknown _ _ h1, tryPattern_eq_none_of_unknown _ _ h2]

/-- Witness for C3: `"foo 3:16"` matches the first grammar but `"foo"` is
    not an alias, so the parse is rejected. -/
theorem parse_citation_unknown_book_witness :
    (bookUnknown (findSplit matchTail1 [] (pyLower (pyStrip "foo 3:16".data))) = true
      ∧ bookUnknown (findSplit matchTail2 [] (pyLower (pyStrip "foo 3:16".data))) = true
      ∧ findSplit matchTail1 [] (pyLower (pyStrip "foo 3:16".data))
          = some (['f', 'o', 'o'], 3, 16))
    ∧ parse_citation "foo 3:16" = none :=
  ⟨⟨by decide, by decide, by decide⟩,
   (parse_citation_unknown_book "foo 3:16").2 (by decide) (by decide)⟩

theorem digit_not_space (c : Char) (h : isAsciiDigit c = true) : isPySpace c = false := by
  simp only [isAsciiDigit, Bool.and_eq_true, decide_eq_true_eq] at h
  simp only [isPySpace, Bool.or_eq_false_iff, decide_eq_false_iff_not]
  omega

theorem getLast?_all (p : Char → Bool) :
    ∀ (d : List Char), d.all p = true → ∀ c, d.getLast? = some c → p c = true := by
  intro d
  induction d with
  | nil => intro _ c hc; simp at hc
  | cons a t ih =>
    intro hall c hc
    cases t with
    | nil =>
      simp at hc
      subst hc
      simpa using hall
    | cons b t2 =>
      rw [List.getLast?_cons_cons] at hc
      have hall2 : (b :: t2).all p = true := by
        simp [List.all_cons] at hall
        simp [List.all_cons]
        exact hall.2
      exact ih hall2 c hc

theorem getLast?_append_nonempty (X d : List Char) (hd : d ≠ []) :
    (X ++ d).getLast? = d.getLast? := by
  rw [List.getLast?_append]
  cases hgl : d.getLast? with
  | none => exact absurd (List.getLast?_eq_none_iff.mp hgl) hd
  | some c => rfl

theorem pyStrip_eq_self (l : List Char)
    (hhead : ∀ c, l.head? = some c → isPySpace c = false)
    (hlast : ∀ c, l.getLast? = some c → isPySpace c = false) :
    pyStrip l = l := by
  unfold pyStrip
  rw [show trimLeft l = l from dropWhile_eq_self_of_head _ _ hhead]
  unfold trimRight trimLeft
  rw [dropWhile_eq_self_of_head _ _ (fun c hc => hlast c (by rwa [List.head?_reverse] at hc)),
      List.reverse_reverse]

/-- Stripping is the identity on a line that starts with a non-space book
    character and ends with a digit. -/
theorem pyStrip_book_line (X d2 : List Char)
    (hhead : ∀ c, X.head? = some c → isPySpace c = false)
    (h2 : d2 ≠ []) (a2 : d2.all isAsciiDigit = true) :
    pyStrip (X ++ d2) = X ++ d2 := by
  apply pyStrip_eq_self
  · intro c hc
    cases X with
    | nil =>
      simp only [List.nil_append] at hc
      cases d2 with
      | nil => exact absurd rfl h2
      | cons a t =>
        simp at hc
        subst hc
        exact digit_not_space a (by simp [List.all_cons] at a2; exact a2.1)
    | cons x t =>
      simp at hc
      subst hc
      exact hhead x rfl
  · intro c hc
    rw [getLast?_append_nonempty X d2 h2] at hc
    exact digit_not_space c (getLast?_all isAsciiDigit d2 a2 c hc)

theorem pyLowerChar_digit (c : Char) (h : isAsciiDigit c = true) : pyLowerChar c = c := by
  simp only [isAsciiDigit, Bool.and_eq_true, decide_eq_true_eq] at h
  unfold pyLowerChar
  rw [if_neg]
  omega

theorem pyLower_digits (d : List Char) (h : d.all isAsciiDigit = true) :
    pyLower d = d := by
  unfold pyLower
  induction d with
  | nil => rfl
  | cons a t ih =>
    simp only [List.all_cons, Bool.and_eq_true] at h
    rw [List.map_cons, pyLowerChar_digit a h.1, ih h.2]

theorem run_split (p : Char → Bool) :
    ∀ (d : List Char), d.all p = true →
      ∀ (rest : List Char), (∀ c, rest.head? = some c → p c = false) →
        (d ++ rest).takeWhile p = d ∧ (d ++ rest).dropWhile p = rest := by
  intro d
  induction d with
  | nil =>
    intro _ rest hhead
    refine ⟨?_, dropWhile_eq_self_of_head p rest hhead⟩
    cases rest with
    | nil => rfl
    | cons r t => simp [List.takeWhile_cons, hhead r rfl]
  | cons a t ih =>
    intro hall rest hhead
    simp only [List.all_cons, Bool.and_eq_true] at hall
    obtain ⟨h1, h2⟩ := ih hall.2 rest hhead
    constructor
    · simp [List.takeWhile_cons, hall.1, h1]
    · simp [List.dropWhile_cons, hall.1, h2]

theorem matchTail1_cons_not_space (c : Char) (rest : List Char)
    (h : isPySpace c = false) : matchTail1 (c :: rest) = none := by
  unfold matchTail1
  simp [List.takeWhile_cons, h]

/-- The remainder `\s+(\d+)[,:.](\d+)$` matches a space, a digit run, a
    separator and a final digit run, extracting the two numbers. -/
theorem matchTail1_digits (d1 d2 : List Char) (sep : Char)
    (h1 : d1 ≠ []) (a1 : d1.all isAsciiDigit = true)
    (h2 : d2 ≠ []) (a2 : d2.all isAsciiDigit = true)
    (hsep : sep = ',' ∨ sep = ':' ∨ sep = '.') :
    matchTail1 (' ' :: (d1 ++ sep :: d2)) = some (digitsToNat d1, digitsToNat d2) := by
  have hsepd : isAsciiDigit sep = false := by
    rcases hsep with h | h | h <;> subst h <;> decide
  have hrun := run_split isAsciiDigit d1 a1 (sep :: d2)
    (fun c hc => by simp at hc; subst hc; exact hsepd)
  have hheadrest : ∀ c, (d1 ++ sep :: d2).head? = some c → isPySpace c = false := by
    intro c hc
    cases d1 with
    | nil => exact absurd rfl h1
    | cons a t =>
      simp at hc
      subst hc
      exact digit_not_space a (by simp [List.all_cons] at a1; exact a1.1)
  have htws : (' ' :: (d1 ++ sep :: d2)).takeWhile isPySpace
      = ' ' :: (d1 ++ sep :: d2).takeWhile isPySpace := by
    rw [List.takeWhile_cons]
    simp [show isPySpace ' ' = true from by decide]
  have htws2 : (d1 ++ sep :: d2).takeWhile isPySpace = [] := by
    cases hh : (d1 ++ sep :: d2) with
    | nil => rfl
    | cons a t =>
      have : (d1 ++ sep :: d2).head? = some a := by rw [hh]; rfl
      simp [List.takeWhile_cons, hheadrest a this]
  have hdws : (' ' :: (d1 ++ sep :: d2)).dropWhile isPySpace = d1 ++ sep :: d2 := by
    rw [List.dropWhile_cons_of_pos (by decide)]
    exact dropWhile_eq_self_of_head _ _ hheadrest
  unfold matchTail1
  dsimp only
  rw [htws, htws2, hdws, hrun.1, hrun.2]
  rw [if_neg (by simp), if_neg (by simpa using h1)]
  dsimp only
  rw [if_pos hsep, if_pos ⟨h2, a2⟩]

/-- Common tail of the three C4 variants: once the normalized citation, the
    grammar split, the stripped book string and its table membership are
    known, `parse_citation` returns that book with the parsed numbers. -/
theorem parse_of_findSplit (s : String) (cit bk : List Char) (b : String) (ch v : Nat)
    (hcit : pyLower (pyStrip s.data) = cit)
    (hfs : findSplit matchTail1 [] cit = some (bk, ch, v))
    (hbk : String.mk (pyStrip bk) = b)
    (hlk : (lookupBook b).isSome = true) :
    parse_citation s = some (b, ch, v) := by
  unfold parse_citation
  dsimp only
  rw [hcit]
  unfold tryPattern
  rw [hfs]
  dsimp only
  rw [hbk, if_pos hlk]

theorem pyLower_append (a b : List Char) : pyLower (a ++ b) = pyLower a ++ pyLower b := by
  unfold pyLower
  exact List.map_append _ _ _

theorem pyLower_cons (c : Char) (l : List Char) :
    pyLower (c :: l) = pyLowerChar c :: pyLower l := rfl

/-- C4: for every chapter and verse numeral, the citation strings
    `"Jo C:V"`, `"João C:V"` and `"joao C,V"` all parse successfully, and
    their extracted books all resolve through the alias table to canonical
    book id 43 (the Gospel of John); in particular `"jo"` resolves to 43 and
    not to 18 (Job), although the table lists `("jo", 18)` earlier — the
    later `("jo", 43)` entry overwrites it. -/
theorem john_aliases_resolve_to_43 (d1 d2 : List Char)
    (h1 : d1 ≠ []) (a1 : d1.all isAsciiDigit = true)
    (h2 : d2 ≠ []) (a2 : d2.all isAsciiDigit = true) :
    (parse_citation (String.mk ('J' :: 'o' :: ' ' :: (d1 ++ ':' :: d2)))
        = some ("jo", digitsToNat d1, digitsToNat d2)
      ∧ lookupBook "jo" = some 43)
    ∧ (parse_citation (String.mk ('J' :: 'o' :: 'ã' :: 'o' :: ' ' :: (d1 ++ ':' :: d2)))
        = some ("joão", digitsToNat d1, digitsToNat d2)
      ∧ lookupBook "joão" = some 43)
    ∧ (parse_citation (String.mk ('j' :: 'o' :: 'a' :: 'o' :: ' ' :: (d1 ++ ',' :: d2)))
        = some ("joao", digitsToNat d1, digitsToNat d2)
      ∧ lookupBook "joao" = some 43)
    ∧ ("jo", 18) ∈ book_mapping ∧ ("jo", 43) ∈ book_mapping
    ∧ lookupBook "jo" ≠ some 18 := by
  have hd1head : ∀ c, (d1 ++ ':' :: d2).head? = some c → isPySpace c = false := by
    intro c hc
    cases d1 with
    | nil => exact absurd rfl h1
    | cons a t =>
      simp at hc
      subst hc
      exact digit_not_space a (by simp [List.all_cons] at a1; exact a1.1)
  have hd1head' : ∀ c, (d1 ++ ',' :: d2).head? = some c → isPySpace c = false := by
    intro c hc
    cases d1 with
    | nil => exact absurd rfl h1
    | cons a t =>
      simp at hc
      subst hc
      exact digit_not_space a (by simp [List.all_cons] at a1; exact a1.1)
  refine ⟨⟨?_, by decide⟩, ⟨?_, by decide⟩, ⟨?_, by decide⟩, by decide, by decide, by decide⟩
  · -- "Jo C:V"
    apply parse_of_findSplit _ ('j' :: 'o' :: ' ' :: (d1 ++ ':' :: d2)) ['j', 'o'] "jo"
    · have hshape : 'J' :: 'o' :: ' ' :: (d1 ++ ':' :: d2)
          = (['J', 'o', ' '] ++ d1 ++ [':']) ++ d2 := by simp
      have hstrip : pyStrip ('J' :: 'o' :: ' ' :: (d1 ++ ':' :: d2))
          = 'J' :: 'o' :: ' ' :: (d1 ++ ':' :: d2) := by
        rw [hshape]
        apply pyStrip_book_line _ _ _ h2 a2
        intro c hc
        cases d1 with
        | nil => simp at hc; subst hc; decide
        | cons a t => simp at hc; subst hc; decide
      show pyLower (pyStrip ('J' :: 'o' :: ' ' :: (d1 ++ ':' :: d2))) = _
      rw [hstrip]
      rw [pyLower_cons, pyLower_cons, pyLower_cons, pyLower_append, pyLower_cons,
          pyLower_digits d1 a1, pyLower_digits d2 a2]
      rfl
    · have hm1 : matchTail1 ('o' :: ' ' :: (d1 ++ ':' :: d2)) = none :=
        matchTail1_cons_not_space 'o' _ (by decide)
      have hm2 : matchTail1 (' ' :: (d1 ++ ':' :: d2))
          = some (digitsToNat d1, digitsToNat d2) :=
        matchTail1_digits d1 d2 ':' h1 a1 h2 a2 (by tauto)
      simp [findSplit, hm1, hm2]
    · decide
    · decide
  · -- "João C:V"
    apply parse_of_findSplit _ ('j' :: 'o' :: 'ã' :: 'o' :: ' ' :: (d1 ++ ':' :: d2))
      ['j', 'o', 'ã', 'o'] "joão"
    · have hshape : 'J' :: 'o' :: 'ã' :: 'o' :: ' ' :: (d1 ++ ':' :: d2)
          = (['J', 'o', 'ã', 'o', ' '] ++ d1 ++ [':']) ++ d2 := by simp
      have hstrip : pyStrip ('J' :: 'o' :: 'ã' :: 'o' :: ' ' :: (d1 ++ ':' :: d2))
          = 'J' :: 'o' :: 'ã' :: 'o' :: ' ' :: (d1 ++ ':' :: d2) := by
        rw [hshape]
        apply pyStrip_book_line _ _ _ h2 a2
        intro c hc
        cases d1 with
        | nil => simp at hc; subst hc; decide
        | cons a t => simp at hc; subst hc; decide
      show pyLower (pyStrip ('J' :: 'o' :: 'ã' :: 'o' :: ' ' :: (d1 ++ ':' :: d2))) = _
      rw [hstrip]
      rw [pyLower_cons, pyLower_cons, pyLower_cons, pyLower_cons, pyLower_cons,
          pyLower_append, pyLower_cons, pyLower_digits d1 a1, pyLower_digits d2 a2]
      rfl
    · have hm1 : matchTail1 ('o' :: 'ã' :: 'o' :: ' ' :: (d1 ++ ':' :: d2)) = none :=
        matchTail1_cons_not_space 'o' _ (by decide)
      have hm2 : matchTail1 ('ã' :: 'o' :: ' ' :: (d1 ++ ':' :: d2)) = none :=
        matchTail1_cons_not_space 'ã' _ (by decide)
      have hm3 : matchTail1 ('o' :: ' ' :: (d1 ++ ':' :: d2)) = none :=
        matchTail1_cons_not_space 'o' _ (by decide)
      have hm4 : matchTail1 (' ' :: (d1 ++ ':' :: d2))
          = some (digitsToNat d1, digitsToNat d2) :=
        matchTail1_digits d1 d2 ':' h1 a1 h2 a2 (by tauto)
      simp [findSplit, hm1, hm2, hm3, hm4]
    · decide
    · decide
  · -- "joao C,V"
    apply parse_of_findSplit _ ('j' :: 'o' :: 'a' :: 'o' :: ' ' :: (d1 ++ ',' :: d2))
      ['j', 'o', 'a', 'o'] "joao"
    · have hshape : 'j' :: 'o' :: 'a' :: 'o' :: ' ' :: (d1 ++ ',' :: d2)
          = (['j', 'o', 'a', 'o', ' '] ++ d1 ++ [',']) ++ d2 := by simp
      have hstrip : pyStrip ('j' :: 'o' :: 'a' :: 'o' :: ' ' :: (d1 ++ ',' :: d2))
          = 'j' :: 'o' :: 'a' :: 'o' :: ' ' :: (d1 ++ ',' :: d2) := by
        rw [hshape]
        apply pyStrip_book_line _ _ _ h2 a2
        intro c hc
        cases d1 with
        | nil => simp at hc; subst hc; decide
        | cons a t => simp at hc; subst hc; decide
      show pyLower (pyStrip ('j' :: 'o' :: 'a' :: 'o' :: ' ' :: (d1 ++ ',' :: d2))) = _
      rw [hstrip]
      rw [pyLower_cons, pyLower_cons, pyLower_cons, pyLower_cons, pyLower_cons,
          pyLower_append, pyLower_cons, pyLower_digits d1 a1, pyLower_digits d2 a2]
      rfl
    · have hm1 : matchTail1 ('o' :: 'a' :: 'o' :: ' ' :: (d1 ++ ',' :: d2)) = none :=
        matchTail1_cons_not_space 'o' _ (by decide)
      have hm2 : matchTail1 ('a' :: 'o' :: ' ' :: (d1 ++ ',' :: d2)) = none :=
        matchTail1_cons_not_space 'a' _ (by decide)
      have hm3 : matchTail1 ('o' :: ' ' :: (d1 ++ ',' :: d2)) = none :=
        matchTail1_cons_not_space 'o' _ (by decide)
      have hm4 : matchTail1 (' ' :: (d1 ++ ',' :: d2))
          = some (digitsToNat d1, digitsToNat d2) :=
        matchTail1_digits d1 d2 ',' h1 a1 h2 a2 (by tauto)
      simp [findSplit, hm1, hm2, hm3, hm4]
    · decide
    · decide

/-- Witness for C4 at chapter 3, verse 16: `"Jo 3:16"`, `"João 3:16"` and
    `"joao 3,16"` all parse to book `"jo"` / `"joão"` / `"joao"` with numbers
    (3, 16), each resolving to book id 43. -/
theorem john_aliases_resolve_to_43_witness :
    ((['3'] : List Char) ≠ [] ∧ (['3'] : List Char).all isAsciiDigit = true
      ∧ (['1', '6'] : List Char) ≠ [] ∧ (['1', '6'] : List Char).all isAsciiDigit = true)
    ∧ (parse_citation (String.mk ('J' :: 'o' :: ' ' :: (['3'] ++ ':' :: ['1', '6'])))
        = some ("jo", digitsToNat ['3'], digitsToNat ['1', '6'])
      ∧ lookupBook "jo" = some 43) :=
  ⟨⟨by decide, by decide, by decide, by decide⟩,
   (john_aliases_resolve_to_43 ['3'] ['1', '6']
      (by decide) (by decide) (by decide) (by decide)).1⟩

/-! ### Search orchestrator (C5) -/

/-- C5: when the query is recognized as a citation but the verse lookup
    fails, the search terminates with the citation-not-found outcome echoing
    the (trimmed) query, and the embedding client is never invoked — there
    is no fallback to embedding the raw query as plain text. -/
theorem citation_not_found_echoes_query
    (verseProvider : Nat → Nat → Nat → Option String)
    (embed : String → Option (List ℚ)) (docs : List StoredDoc) (query : String)
    (hcit : is_bible_citation (pyStripStr query) = true)
    (hnf : get_verse_by_citation verseProvider (pyStripStr query) = none) :
    search_similar_texts verseProvider embed docs query
      = (.citationNotFound (pyStripStr query), []) := by
  have hne : ¬ pyStripStr query = "" := by
    intro h
    rw [h] at hcit
    exact absurd hcit (by decide)
  unfold search_similar_texts
  rw [if_neg hne]
  dsimp only
  rw [hcit]
  rw [if_pos rfl, hnf]

/-- Witness for C5: `"jo 99:1"` is recognized as a citation, the lookup
    collaborator finds nothing, and the search reports citation-not-found
    with the query echoed and no embedding calls made. -/
theorem citation_not_found_echoes_query_witness :
    (is_bible_citation (pyStripStr "jo 99:1") = true
      ∧ get_verse_by_citation verseProviderNone (pyStripStr "jo 99:1") = none)
    ∧ search_similar_texts verseProviderNone embedConst1 [] "jo 99:1"
        = (.citationNotFound (pyStripStr "jo 99:1"), []) :=
  ⟨⟨by decide, by decide⟩,
   citation_not_found_echoes_query verseProviderNone embedConst1 [] "jo 99:1"
     (by decide) (by decide)⟩

/-! ### Duplicate-title admission (C6) -/

/-- Normalization is stable under a preceding strip:
    `strip(lower(strip(s))) = lower(strip(s))`. -/
theorem normalize_strip (s : String) :
    pyStripStr (pyLowerStr (pyStripStr s)) = pyLowerStr (pyStripStr s) := by
  unfold pyStripStr pyLowerStr
  rw [show (String.mk (pyStrip s.data)).data = pyStrip s.data from rfl,
      show ∀ l, (String.mk (pyLower l)).data = pyLower l from fun _ => rfl,
      pyStrip_pyLower, pyStrip_idem]

/-- Lowering commutes with stripping at the `String` boundary:
    the source's `title.lower().strip()` equals the spec's
    `lower(trim(title))`. -/
theorem normalize_comm (s : String) :
    pyStripStr (pyLowerStr s) = pyLowerStr (pyStripStr s) := by
  unfold pyStripStr pyLowerStr
  rw [show (String.mk (pyLower s.data)).data = pyLower s.data from rfl,
      show (String.mk (pyStrip s.data)).data = pyStrip s.data from rfl,
      pyStrip_pyLower]

/-- C6: an `add_record` whose normalized title matches an existing document
    is refused: the store is unchanged (nothing inserted), the response is
    the duplicate outcome carrying the existing document's id and title, and
    the match is exactly equality of normalized titles. -/
theorem add_record_duplicate_refused
    (embed : String → Option (List ℚ)) (store : List StoredDoc) (nextId now : Nat)
    (title content : String) (d : StoredDoc)
    (ht : pyStripStr title ≠ "")
    (hc : pyStripStr content ≠ "")
    (hd : check_title_exists store (pyStripStr title) = some d) :
    add_record embed store nextId now title content = (.duplicate d.id d.title, store)
    ∧ d ∈ store
    ∧ d.title_lower = pyLowerStr (pyStripStr title) := by
  refine ⟨?_, ?_, ?_⟩
  · unfold add_record
    dsimp only
    rw [if_neg ht, if_neg hc, hd]
  · exact List.mem_of_find?_eq_some hd
  · have hp := List.find?_some hd
    have heq : d.title_lower = pyStripStr (pyLowerStr (pyStripStr title)) := by
      simpa using hp
    rw [heq, normalize_strip]

/-- Witness for C6, the spec's own scenario: after inserting
    `"Salmo 23"`, adding `"  SALMO 23  "` is rejected with a duplicate
    outcome referencing the first document, and the store is unchanged. -/
theorem add_record_duplicate_refused_witness :
    (pyStripStr "  SALMO 23  " ≠ "" ∧ pyStripStr "conteudo2" ≠ ""
      ∧ check_title_exists (add_record embedConst1 [] 0 5 "Salmo 23" "conteudo").2
          (pyStripStr "  SALMO 23  ") = some docSalmo)
    ∧ add_record embedConst1 (add_record embedConst1 [] 0 5 "Salmo 23" "conteudo").2
          1 6 "  SALMO 23  " "conteudo2"
        = (.duplicate docSalmo.id docSalmo.title,
           (add_record embedConst1 [] 0 5 "Salmo 23" "conteudo").2) :=
  ⟨⟨by decide, by decide, by decide⟩,
   (add_record_duplicate_refused embedConst1
      (add_record embedConst1 [] 0 5 "Salmo 23" "conteudo").2 1 6
      "  SALMO 23  " "conteudo2" docSalmo (by decide) (by decide) (by decide)).1⟩

/-! ### Normalized-title invariant (C10) -/

/-- C10: every document written by `insert_record` or `update_record`
    satisfies `title_lower = lower(trim(title))` (both operations preserve
    the invariant), and under that invariant the case-insensitive duplicate
    check agrees exactly with the stored titles: it finds a document iff
    some stored document's normalized title equals the query's. -/
theorem normalized_title_invariant :
    (∀ (store : List StoredDoc) (record_id : Nat) (title text : String)
        (embedding : List ℚ) (filename : Option String) (now : Nat),
      NormOk store →
      NormOk (insert_record store record_id title text embedding filename now))
    ∧ (∀ (store : List StoredDoc) (record_id : Nat) (title text : String)
        (embedding : List ℚ) (now : Nat),
      NormOk store →
      NormOk (update_record store record_id title text embedding now).1)
    ∧ (∀ (store : List StoredDoc) (t : String), NormOk store →
        ((check_title_exists store t).isSome = true
          ↔ ∃ d ∈ store, pyLowerStr (pyStripStr d.title) = pyLowerStr (pyStripStr t))) := by
  refine ⟨?_, ?_, ?_⟩
  · intro store record_id title text embedding filename now h
    intro d hd
    unfold insert_record at hd
    rcases List.mem_append.mp hd with hd | hd
    · exact h d hd
    · simp only [List.mem_singleton] at hd
      subst hd
      exact normalize_comm title
  · intro store record_id title text embedding now h
    intro d hd
    unfold update_record at hd
    dsimp only at hd
    rcases List.mem_map.mp hd with ⟨d0, hd0, hmap⟩
    by_cases hid : d0.id = record_id
    · rw [if_pos hid] at hmap
      subst hmap
      exact normalize_comm title
    · rw [if_neg hid] at hmap
      subst hmap
      exact h d0 hd0
  · intro store t h
    unfold check_title_exists
    rw [List.find?_isSome]
    constructor
    · rintro ⟨d, hd, hp⟩
      refine ⟨d, hd, ?_⟩
      have heq : d.title_lower = pyStripStr (pyLowerStr t) := by simpa using hp
      rw [← h d hd, heq, normalize_comm]
    · rintro ⟨d, hd, heq⟩
      refine ⟨d, hd, ?_⟩
      have : d.title_lower = pyStripStr (pyLowerStr t) := by
        rw [h d hd, heq, normalize_comm]
      simpa using this

/-- Witness for C10: inserting a title with surrounding blanks and mixed
    case into the empty store establishes the invariant, and the duplicate
    check then agrees with the stored title. -/
theorem normalized_title_invariant_witness :
    NormOk ([] : List StoredDoc)
    ∧ NormOk (insert_record [] 0 " Ab " "t" [1] none 5) :=
  ⟨fun d hd => absurd hd (List.not_mem_nil d),
   (normalized_title_invariant).1 [] 0 " Ab " "t" [1] none 5
     (fun d hd => absurd hd (List.not_mem_nil d))⟩

end TextSentiment
